import Mathlib

/-!
Shallow embedding of the content-chunking and retrieval-confidence pipeline
(`lib/rag.ts`): the recursive JSON flattener, the index-query adapter, and
the two synthesis operations, together with theorems settling the spec
claims about them.

JavaScript `undefined` is modelled as `Option.none`; similarity scores and
sampling temperatures are modelled as rationals; the ambient clock/RNG used
for chunk ids is modelled as a stream `amb : Nat -> String` consumed one
draw per generated id, with the next-draw index threaded explicitly.
External providers are modelled as function parameters returning `Except`,
a thrown exception being `Except.error`.
-/

/-- A JSON value, as in the `JsonValue` type of the source. -/
inductive Json where
  | str (s : String)
  | num (n : Int)
  | bool (b : Bool)
  | null
  | arr (items : List Json)
  | obj (entries : List (String × Json))
deriving Repr

/-- A flattened chunk, as produced by `flattenJson`. -/
structure Chunk where
  path : String
  text : String
  id : String
deriving Repr, DecidableEq

/-- JavaScript `typeof v === "string" || "number" || "boolean"`:
the filter used for the combined array chunk. -/
def Json.isPrimitive : Json → Bool
  | .str _ => true
  | .num _ => true
  | .bool _ => true
  | _ => false

/-- JavaScript `typeof item === "object" && item !== null`:
arrays and objects, excluding null. -/
def Json.isContainer : Json → Bool
  | .arr _ => true
  | .obj _ => true
  | _ => false

/-- JavaScript `String(value)` restricted to the primitive values the
source applies it to. -/
def jsString : Json → String
  | .str s => s
  | .num n => toString n
  | .bool b => if b then "true" else "false"
  | _ => ""

mutual

/-- `flattenJson(value, basePath)` from the source. `amb n` is the ambient
`Date.now() + "-" + Math.random()` suffix drawn for the n-th generated id;
the `Nat` in the result is the index of the next unconsumed draw. -/
def flattenJson (amb : Nat → String) : Json → String → Nat → List Chunk × Nat
  | .null, _, k => ([], k)
  | .str s, basePath, k =>
      let path := if basePath = "" then "root" else basePath
      ([⟨path, jsString (.str s), path ++ "-" ++ amb k⟩], k + 1)
  | .num n, basePath, k =>
      let path := if basePath = "" then "root" else basePath
      ([⟨path, jsString (.num n), path ++ "-" ++ amb k⟩], k + 1)
  | .bool b, basePath, k =>
      let path := if basePath = "" then "root" else basePath
      ([⟨path, jsString (.bool b), path ++ "-" ++ amb k⟩], k + 1)
  | .arr items, basePath, k =>
      let primitiveValues := items.filter Json.isPrimitive
      let out :=
        if primitiveValues.length > 0 then
          let path := if basePath = "" then "root" else basePath
          ([Chunk.mk path (String.intercalate " | " (primitiveValues.map jsString))
              (path ++ "-array-" ++ amb k)], k + 1)
        else ([], k)
      let nested := flattenItems amb items basePath 0 out.2
      (out.1 ++ nested.1, nested.2)
  | .obj entries, basePath, k => flattenEntries amb entries basePath k

/-- The `value.flatMap((item, index) => ...)` part of the array case:
recurse into object/array elements only, at the original index of the element. -/
def flattenItems (amb : Nat → String) :
    List Json → String → Nat → Nat → List Chunk × Nat
  | [], _, _, k => ([], k)
  | item :: rest, basePath, i, k =>
      let here :=
        if item.isContainer then
          flattenJson amb item (basePath ++ "[" ++ toString i ++ "]") k
        else ([], k)
      let there := flattenItems amb rest basePath (i + 1) here.2
      (here.1 ++ there.1, there.2)

/-- The `Object.entries(value).flatMap(([key, nestedValue]) => ...)` case:
recurse into each entry with the dot-extended path. -/
def flattenEntries (amb : Nat → String) :
    List (String × Json) → String → Nat → List Chunk × Nat
  | [], _, k => ([], k)
  | (key, v) :: rest, basePath, k =>
      let nextPath := if basePath = "" then key else basePath ++ "." ++ key
      let here := flattenJson amb v nextPath k
      let there := flattenEntries amb rest basePath here.2
      (here.1 ++ there.1, there.2)

end

/-- The run-independent projection of a chunk: its path and text
(the id mixes ambient clock and randomness). -/
def chunkPT (c : Chunk) : String × String := (c.path, c.text)

theorem flattenJson_map_chunkPT (amb amb' : Nat → String) :
    ∀ (v : Json) (basePath : String) (k : Nat), ∀ k' : Nat,
      ((flattenJson amb v basePath k).1).map chunkPT
        = ((flattenJson amb' v basePath k').1).map chunkPT := by
  refine flattenJson.induct amb
    (fun v basePath k => ∀ k' : Nat,
      ((flattenJson amb v basePath k).1).map chunkPT
        = ((flattenJson amb' v basePath k').1).map chunkPT)
    (fun entries basePath k => ∀ k' : Nat,
      ((flattenEntries amb entries basePath k).1).map chunkPT
        = ((flattenEntries amb' entries basePath k').1).map chunkPT)
    (fun items basePath i k => ∀ k' : Nat,
      ((flattenItems amb items basePath i k).1).map chunkPT
        = ((flattenItems amb' items basePath i k').1).map chunkPT)
    ?_ ?_ ?_ ?_ ?_ ?_ ?_ ?_ ?_ ?_
  · intro bp k k'
    simp [flattenJson]
  · intro s bp k k'
    simp [flattenJson, chunkPT]
  · intro n bp k k'
    simp [flattenJson, chunkPT]
  · intro b bp k k'
    simp [flattenJson, chunkPT]
  · intro items bp k primitiveValues out IH k'
    unfold out primitiveValues at IH
    simp only [flattenJson, List.map_append]
    by_cases h : (items.filter Json.isPrimitive).length > 0
    · simp only [if_pos h, List.map_cons, List.map_nil, chunkPT] at IH ⊢
      exact congrArg _ (IH _)
    · simp only [if_neg h, List.map_nil] at IH ⊢
      exact IH _
  · intro entries bp k IH k'
    simp only [flattenJson]
    exact IH k'
  · intro bp i k k'
    simp [flattenItems]
  · intro item rest bp i k here IH1 IH2 k'
    unfold here at IH2
    simp only [flattenItems, List.map_append]
    by_cases hc : item.isContainer
    · simp only [if_pos hc] at IH2 ⊢
      exact congrArg₂ (· ++ ·) (IH1 _) (IH2 _)
    · simp only [if_neg hc, List.map_nil] at IH2 ⊢
      exact IH2 _
  · intro bp k k'
    simp [flattenEntries]
  · intro key v rest bp k nextPath here IH1 IH2 k'
    unfold here nextPath at IH1 IH2
    simp only [flattenEntries, List.map_append]
    exact congrArg₂ (· ++ ·) (IH1 _) (IH2 _)

theorem flatMap_congr {α β : Type} {l : List α} {f g : α → List β}
    (h : ∀ a ∈ l, f a = g a) : l.flatMap f = l.flatMap g := by
  induction l with
  | nil => rfl
  | cons a l IH =>
    simp only [List.flatMap_cons]
    exact congrArg₂ (· ++ ·) (h a (List.mem_cons_self a l))
      (IH (fun b hb => h b (List.mem_cons_of_mem a hb)))

theorem flattenItems_enumFrom (amb : Nat → String) (basePath : String) :
    ∀ (items : List Json) (i k : Nat),
      ((flattenItems amb items basePath i k).1).map chunkPT
        = (List.enumFrom i items).flatMap (fun p =>
            if p.2.isContainer then
              ((flattenJson amb p.2 (basePath ++ "[" ++ toString p.1 ++ "]") k).1).map chunkPT
            else []) := by
  intro items
  induction items with
  | nil => intro i k; simp [flattenItems]
  | cons item rest IH =>
    intro i k
    simp only [flattenItems, List.map_append, List.enumFrom_cons, List.flatMap_cons]
    by_cases hc : item.isContainer
    · simp only [if_pos hc]
      refine congrArg₂ (· ++ ·) rfl ?_
      rw [IH (i + 1) ((flattenJson amb item (basePath ++ "[" ++ toString i ++ "]") k).2)]
      refine flatMap_congr (fun p hp => ?_)
      by_cases hpc : p.2.isContainer
      · simp only [if_pos hpc]
        exact flattenJson_map_chunkPT amb amb p.2 _ _ k
      · simp only [if_neg hpc]
    · simp only [if_neg hc, List.map_nil, List.nil_append]
      exact IH (i + 1) k


theorem flattenJson_path_nonempty (amb : Nat → String) :
    ∀ (v : Json) (basePath : String) (k : Nat),
      ∀ c ∈ (flattenJson amb v basePath k).1, c.path ≠ "" := by
  refine flattenJson.induct amb
    (fun v basePath k => ∀ c ∈ (flattenJson amb v basePath k).1, c.path ≠ "")
    (fun entries basePath k => ∀ c ∈ (flattenEntries amb entries basePath k).1, c.path ≠ "")
    (fun items basePath i k => ∀ c ∈ (flattenItems amb items basePath i k).1, c.path ≠ "")
    ?_ ?_ ?_ ?_ ?_ ?_ ?_ ?_ ?_ ?_
  · intro bp k c hc
    simp [flattenJson] at hc
  · intro s bp k c hc
    simp only [flattenJson, List.mem_singleton] at hc
    subst hc
    dsimp
    split_ifs with h
    · simp
    · exact h
  · intro n bp k c hc
    simp only [flattenJson, List.mem_singleton] at hc
    subst hc
    dsimp
    split_ifs with h
    · simp
    · exact h
  · intro b bp k c hc
    simp only [flattenJson, List.mem_singleton] at hc
    subst hc
    dsimp
    split_ifs with h
    · simp
    · exact h
  · intro items bp k primitiveValues out IH c hc
    unfold out primitiveValues at IH
    simp only [flattenJson, List.mem_append] at hc
    rcases hc with hc | hc
    · by_cases h : (items.filter Json.isPrimitive).length > 0
      · simp only [if_pos h, List.mem_singleton] at hc
        subst hc
        dsimp
        split_ifs with hbp
        · simp
        · exact hbp
      · simp only [if_neg h, List.not_mem_nil] at hc
    · exact IH c hc
  · intro entries bp k IH c hc
    simp only [flattenJson] at hc
    exact IH c hc
  · intro bp i k c hc
    simp [flattenItems] at hc
  · intro item rest bp i k here IH1 IH2 c hc
    unfold here at IH2
    simp only [flattenItems, List.mem_append] at hc
    rcases hc with hc | hc
    · by_cases hcont : item.isContainer
      · simp only [if_pos hcont] at hc
        exact IH1 c hc
      · simp only [if_neg hcont, List.not_mem_nil] at hc
    · exact IH2 c hc
  · intro bp k c hc
    simp [flattenEntries] at hc
  · intro key v rest bp k nextPath here IH1 IH2 c hc
    unfold here nextPath at IH1 IH2
    simp only [flattenEntries, List.mem_append] at hc
    rcases hc with hc | hc
    · exact IH1 c hc
    · exact IH2 c hc

/-- A retrieved chunk as produced by `retrieveRelevant`. The TypeScript type
declares `path` and `text` as `string`, but the mapped values can be
JavaScript `undefined` when a query hit carries no metadata; `Option.none`
models `undefined`. -/
structure RetrievedChunk where
  path : Option String
  text : Option String
  score : ℚ
  id : String
deriving Repr, DecidableEq

/-- JavaScript template-literal interpolation of a possibly-undefined
string value. -/
def jsShow : Option String → String
  | some s => s
  | none => "undefined"

/-- JavaScript `content || fallback` for a possibly-undefined string:
the empty string is falsy. -/
def jsOrElse : Option String → String → String
  | some s, d => if s = "" then d else s
  | none, d => d

/-- One chat message of a generation request. -/
structure ChatMessage where
  role : String
  content : String
deriving Repr, DecidableEq

/-- The argument record of `groq.chat.completions.create`. -/
structure GenRequest where
  messages : List ChatMessage
  model : String
  temperature : ℚ
  max_tokens : Nat
deriving Repr, DecidableEq

/-- The discrete confidence level. -/
inductive Confidence where
  | high
  | medium
  | low
deriving Repr, DecidableEq

/-- The result record returned by both synthesis operations. -/
structure SynthesisResult where
  answer : String
  confidence : Confidence
  evidence : List (Option String)
deriving Repr, DecidableEq

/-- The metadata payload stored with each index record. -/
structure QueryMetadata where
  path : String
  text : String
deriving Repr, DecidableEq

/-- One hit returned by the `query` call of the index provider. -/
structure QueryHit where
  id : String
  score : ℚ
  metadata : Option QueryMetadata
deriving Repr, DecidableEq

/-- `retrieveRelevant(question, limit)` from the source. The index
method `vector.query` of the index provider is the parameter `query`; a thrown provider
error is `Except.error`. -/
def retrieveRelevant (query : String → Nat → Except Unit (List QueryHit))
    (question : String) (limit : Nat) : List RetrievedChunk :=
  match query question limit with
  | .ok results =>
      results.map (fun r =>
        { id := r.id
          path := r.metadata.map QueryMetadata.path
          text := r.metadata.map QueryMetadata.text
          score := r.score })
  | .error _ => []

/-- The fixed refusal text `summarizeAnswer` returns on an empty chunk
list. -/
def refusalAnswer : String :=
  "I could not find relevant information for that question in the provided profile data. Please ask about experience, skills, projects, salary/location, or interview preparation."

/-- The per-chunk context line: the template literal
interpolating path and text around a colon. -/
def contextLine (c : RetrievedChunk) : String :=
  jsShow c.path ++ ": " ++ jsShow c.text

/-- The system message of the question-answering prompt. -/
def answerSystemContent : String :=
  "You are an AI assistant helping with career/interview preparation. Answer questions based ONLY on the provided context from a professional profile. Be concise and practical.\n\nRules:\n- Only use information from the provided context\n- If information is missing, say so clearly\n- Focus on interview preparation, achievements, technical skills, and career goals\n- Be direct and actionable"

/-- The user message of the question-answering prompt. -/
def answerUserContent (question context : String) : String :=
  "Question: " ++ question ++ "\n\nContext from profile:\n" ++ context ++ "\n\nAnswer the question based only on the provided context:"

/-- The shared tail of both synthesis operations: the `try`/`catch` around
the provider call and the `content || fallback` extraction. `out` is the
provider outcome, `emptyFallback` the message substituted for empty or
absent content, `errText` the fixed catch-branch message. -/
def completionResult (out : Except Unit (Option String))
    (emptyFallback errText : String) (confidence : Confidence)
    (evidence : List (Option String)) : SynthesisResult :=
  match out with
  | .ok content => ⟨jsOrElse content emptyFallback, confidence, evidence⟩
  | .error _ => ⟨errText, Confidence.low, evidence⟩

/-- `summarizeAnswer(question, chunks)` from the source. The generation
provider (`groq.chat.completions.create`) is the parameter `complete`: it
returns the content of the first choice, `none` standing for an absent
message, and `Except.error` for a thrown error. The second component of
the result lists the requests actually sent to the provider. -/
def summarizeAnswer (complete : GenRequest → Except Unit (Option String))
    (question : String) (chunks : List RetrievedChunk) :
    SynthesisResult × List GenRequest :=
  match chunks with
  | [] => (⟨refusalAnswer, Confidence.low, []⟩, [])
  | c0 :: rest =>
      let top := (c0 :: rest).take 3
      let evidence := top.map RetrievedChunk.path
      let context := String.intercalate "\n" (top.map contextLine)
      let confidence : Confidence :=
        if c0.score ≥ 0.8 then .high else if c0.score ≥ 0.6 then .medium else .low
      let req : GenRequest :=
        ⟨[⟨"system", answerSystemContent⟩,
          ⟨"user", answerUserContent question context⟩],
         "llama-3.1-8b-instant", 0.1, 500⟩
      (completionResult (complete req) "Unable to generate response."
        "Error generating response. Please try again." confidence evidence, [req])

/-- The fixed part of the article-generation system message. -/
def articleSystemBase : String :=
  "You are an expert article writer specializing in project narratives. Generate complete, well-structured articles based on the project information provided. Each article must include:\n\n- A clear, compelling title that captures the essence of the project\n- An engaging introduction that provides context and sets the stage\n- Multiple well-developed body paragraphs that:\n  * Describe the project\x27s goals and objectives\n  * Explain the activities and methods used\n  * Highlight key outcomes and achievements\n  * Discuss the impact and significance\n- A thoughtful conclusion that summarizes key points and offers final insights\n\nStyle requirements:\n- Use a professional yet engaging narrative tone\n- Write clearly and make the content accessible\n- Expand on all provided details with relevant elaboration\n- Ensure logical flow and organization\n- Create a cohesive story that brings the project to life"

/-- The suffix appended to the article system message when chunks are
present. -/
def articleContextHint : String :=
  "\n- Use the provided context as additional reference when relevant"

/-- The article-generation user message in the branch where chunks are
present: it embeds a context block. -/
def articleUserWithContext (topic context : String) : String :=
  "Please write a comprehensive narrative article based on the following project information:\n\n" ++ topic ++ "\n\nAdditional context from database:\n" ++ context ++ "\n\nGenerate a detailed, well-structured article that tells the complete story of this project."

/-- The article-generation user message in the branch where no chunks are
present: no context block at all. -/
def articleUserNoContext (topic : String) : String :=
  "Please write a comprehensive narrative article based on the following project information:\n\n" ++ topic ++ "\n\nGenerate a detailed, well-structured article that tells the complete story of this project."

/-- `generateArticle(topic, chunks)` from the source, modelled like
`summarizeAnswer`. -/
def generateArticle (complete : GenRequest → Except Unit (Option String))
    (topic : String) (chunks : List RetrievedChunk) :
    SynthesisResult × List GenRequest :=
  let top := chunks.take 3
  let evidence := top.map RetrievedChunk.path
  let context :=
    if chunks.length > 0 then String.intercalate "\n" (top.map contextLine)
    else "No specific context available."
  let confidence : Confidence :=
    match chunks with
    | [] => .low
    | c0 :: _ => if c0.score ≥ 0.8 then .high else if c0.score ≥ 0.6 then .medium else .low
  let req : GenRequest :=
    ⟨[⟨"system", articleSystemBase ++ (if chunks.length > 0 then articleContextHint else "")⟩,
      ⟨"user", if chunks.length > 0 then articleUserWithContext topic context
               else articleUserNoContext topic⟩],
     "llama-3.1-8b-instant", 0.7, 1200⟩
  (completionResult (complete req) "Unable to generate article."
    "Error generating article. Please try again." confidence evidence, [req])

/-- The confidence mapping exactly as the spec words it, for comparison
with the inline conditionals of `summarizeAnswer` and `generateArticle`. -/
def classifySpec (score : ℚ) : Confidence :=
  if score ≥ 0.8 then .high
  else if 0.6 ≤ score ∧ score < 0.8 then .medium
  else .low

/-- Claim C1: for every JSON list, `flattenJson` emits exactly two
contributions in order: first, when the list contains any scalar element,
one combined chunk at `basePath` (or `"root"` when `basePath` is empty)
whose text joins the string forms of those scalars with `" | "` in original list
order; then, for every object or array element, the chunks of the
recursive call at `basePath ++ "[" ++ index ++ "]"` where the index is the
position of the element in the original list. Stated on the run-independent
(path, text) projection, since ids mix ambient clock and randomness. -/
theorem claim_C1 :
    ∀ (amb : Nat → String) (items : List Json) (basePath : String) (k : Nat),
      ((flattenJson amb (Json.arr items) basePath k).1).map chunkPT
        = (if items.any Json.isPrimitive then
             [((if basePath = "" then "root" else basePath),
               String.intercalate " | " ((items.filter Json.isPrimitive).map jsString))]
           else [])
          ++ items.enum.flatMap (fun p =>
               if p.2.isContainer then
                 ((flattenJson amb p.2 (basePath ++ "[" ++ toString p.1 ++ "]") k).1).map chunkPT
               else []) := by
  intro amb items basePath k
  simp only [flattenJson, List.map_append, List.enum_eq_enumFrom]
  refine congrArg₂ (· ++ ·) ?_ ?_
  · by_cases h : (items.filter Json.isPrimitive).length > 0
    · have hany : items.any Json.isPrimitive = true := by
        rcases List.exists_mem_of_ne_nil _ (List.length_pos.mp h) with ⟨c, hc⟩
        rcases List.mem_filter.mp hc with ⟨hcm, hcp⟩
        exact List.any_eq_true.mpr ⟨c, hcm, hcp⟩
      rw [if_pos h, if_pos hany]
      simp [chunkPT]
    · have hany : ¬ items.any Json.isPrimitive = true := by
        intro hany
        rcases List.any_eq_true.mp hany with ⟨c, hcm, hcp⟩
        exact h (List.length_pos.mpr (List.ne_nil_of_mem (List.mem_filter.mpr ⟨hcm, hcp⟩)))
      rw [if_neg h, if_neg hany]
      simp
  · rw [flattenItems_enumFrom]
    refine flatMap_congr (fun p hp => ?_)
    by_cases hpc : p.2.isContainer
    · simp only [if_pos hpc]
      exact flattenJson_map_chunkPT amb amb p.2 _ _ k
    · simp only [if_neg hpc]

/-- Claim C2 counterexample: `flattenJson` on the JSON value
`[1, \x7b"x": 2\x7d]` with empty base path does NOT yield the claimed pair of
chunks with paths `"root"` and `"root[1].x"`: the nested recursion extends
the empty base path to `"[1]"`, not `"root[1]"`. -/
theorem claim_C2_counterexample :
    ((flattenJson (fun _ => "0") (Json.arr [Json.num 1, Json.obj [("x", Json.num 2)]]) "" 0).1).map chunkPT
      ≠ [("root", "1"), ("root[1].x", "2")] := by
  decide

/-- Claim C2 (amended): `flattenJson` on the JSON value `[1, \x7b"x": 2\x7d]`
with empty base path yields exactly two chunks in order: the combined
scalar chunk with path `"root"` and text `"1"`, then the chunk with path
`"[1].x"` (not `"root[1].x"`) and text `"2"`, for every ambient id stream
and start index. -/
theorem claim_C2 :
    ∀ (amb : Nat → String) (k : Nat),
      ((flattenJson amb (Json.arr [Json.num 1, Json.obj [("x", Json.num 2)]]) "" k).1).map chunkPT
        = [("root", "1"), ("[1].x", "2")] := by
  intro amb k
  rw [flattenJson_map_chunkPT amb (fun _ => "0") _ "" k 0]
  decide

/-- Claim C8: `flattenJson` is a total function (so it terminates and
cannot throw), a `null` value yields no chunk at all, and every chunk it
emits has a non-empty path. -/
theorem claim_C8 :
    ∀ (amb : Nat → String) (v : Json) (basePath : String) (k : Nat),
      (flattenJson amb Json.null basePath k).1 = []
      ∧ ∀ c ∈ (flattenJson amb v basePath k).1, c.path ≠ "" :=
  fun amb v basePath k => ⟨rfl, flattenJson_path_nonempty amb v basePath k⟩

/-- Claim C10: two invocations of `flattenJson` on the same value and base
path but with different ambient clock/randomness streams and different
draw indices produce chunk lists of the same length that agree pointwise
on path and text; only the ids can differ. -/
theorem claim_C10 :
    ∀ (amb amb' : Nat → String) (v : Json) (basePath : String) (k k' : Nat),
      ((flattenJson amb v basePath k).1).map chunkPT
          = ((flattenJson amb' v basePath k').1).map chunkPT
      ∧ (flattenJson amb v basePath k).1.length
          = (flattenJson amb' v basePath k').1.length := by
  intro amb amb' v basePath k k'
  have h := flattenJson_map_chunkPT amb amb' v basePath k k'
  refine ⟨h, ?_⟩
  have := congrArg List.length h
  simpa using this

/-- Claim C3: on a non-empty ranked chunk list, the confidence computed by
both `summarizeAnswer` and `generateArticle` (observed when the provider
succeeds) is a function of the top-ranked score alone and equals the
mapping `classifySpec` taken from the spec, whose boundaries are inclusive below:
exactly 0.8 is high, exactly 0.6 is medium, 0.599 is low. -/
theorem claim_C3 :
    ∀ (a question topic : String) (c0 : RetrievedChunk) (rest : List RetrievedChunk),
      (summarizeAnswer (fun _ => Except.ok (some a)) question (c0 :: rest)).1.confidence
          = classifySpec c0.score
      ∧ (generateArticle (fun _ => Except.ok (some a)) topic (c0 :: rest)).1.confidence
          = classifySpec c0.score
      ∧ classifySpec 0.8 = Confidence.high
      ∧ classifySpec 0.6 = Confidence.medium
      ∧ classifySpec 0.599 = Confidence.low := by
  intro a question topic c0 rest
  have hcls : ∀ s : ℚ,
      (if s ≥ 0.8 then Confidence.high
       else if s ≥ 0.6 then Confidence.medium else Confidence.low)
        = classifySpec s := by
    intro s
    unfold classifySpec
    by_cases h1 : s ≥ 0.8
    · rw [if_pos h1, if_pos h1]
    · rw [if_neg h1, if_neg h1]
      by_cases h2 : s ≥ 0.6
      · rw [if_pos h2, if_pos ⟨h2, lt_of_not_le h1⟩]
      · rw [if_neg h2, if_neg (fun hc => h2 hc.1)]
  refine ⟨?_, ?_, ?_, ?_, ?_⟩
  · simp only [summarizeAnswer, completionResult]
    exact hcls c0.score
  · simp only [generateArticle, completionResult]
    exact hcls c0.score
  · unfold classifySpec
    rw [if_pos (by norm_num)]
  · unfold classifySpec
    rw [if_neg (by norm_num), if_pos (by norm_num)]
  · unfold classifySpec
    rw [if_neg (by norm_num), if_neg (by norm_num)]

/-- Claim C6: for every ranked chunk list given to either synthesis
operation and every provider behaviour, the evidence of the result is the
list of path values of the top-ranked chunks in rank order, of length
exactly `min 3 (number of chunks)`. -/
theorem claim_C6 :
    ∀ (complete : GenRequest → Except Unit (Option String)) (question topic : String)
      (chunks : List RetrievedChunk),
      (summarizeAnswer complete question chunks).1.evidence
          = (chunks.take 3).map RetrievedChunk.path
      ∧ (summarizeAnswer complete question chunks).1.evidence.length
          = min 3 chunks.length
      ∧ (generateArticle complete topic chunks).1.evidence
          = (chunks.take 3).map RetrievedChunk.path
      ∧ (generateArticle complete topic chunks).1.evidence.length
          = min 3 chunks.length := by
  intro complete question topic chunks
  have hart : (generateArticle complete topic chunks).1.evidence
      = (chunks.take 3).map RetrievedChunk.path := by
    simp only [generateArticle]
    cases complete _ with
    | ok content => rfl
    | error e => rfl
  have hsum : (summarizeAnswer complete question chunks).1.evidence
      = (chunks.take 3).map RetrievedChunk.path := by
    cases chunks with
    | nil => rfl
    | cons c0 rest =>
      simp only [summarizeAnswer]
      cases complete _ with
      | ok content => rfl
      | error e => rfl
  refine ⟨hsum, ?_, hart, ?_⟩
  · rw [hsum]
    simp [List.length_take]
  · rw [hart]
    simp [List.length_take]

theorem generateArticle_empty_request
    (complete : GenRequest → Except Unit (Option String)) (topic : String) :
    (generateArticle complete topic []).2
      = [⟨[⟨"system", articleSystemBase⟩, ⟨"user", articleUserNoContext topic⟩],
          "llama-3.1-8b-instant", 0.7, 1200⟩] := by
  simp [generateArticle]

/-- Claim C4 (amended): with an empty chunk list, `summarizeAnswer`
returns the fixed refusal text with confidence low and empty evidence and
makes no provider call, whereas `generateArticle` does call the provider
exactly once — but with a prompt that omits the context block entirely
(the `"No specific context available."` placeholder is computed internally
and never reaches the prompt); on non-empty chunks the two operations
compute the same confidence from the same scores. -/
theorem claim_C4 :
    ∀ (complete : GenRequest → Except Unit (Option String)) (a question topic : String)
      (c0 : RetrievedChunk) (rest : List RetrievedChunk),
      summarizeAnswer complete question ([] : List RetrievedChunk)
          = (⟨refusalAnswer, Confidence.low, []⟩, [])
      ∧ (generateArticle complete topic []).2
          = [⟨[⟨"system", articleSystemBase⟩, ⟨"user", articleUserNoContext topic⟩],
              "llama-3.1-8b-instant", 0.7, 1200⟩]
      ∧ (summarizeAnswer (fun _ => Except.ok (some a)) question (c0 :: rest)).1.confidence
          = (generateArticle (fun _ => Except.ok (some a)) topic (c0 :: rest)).1.confidence := by
  intro complete a question topic c0 rest
  refine ⟨rfl, generateArticle_empty_request complete topic, ?_⟩
  simp only [summarizeAnswer, generateArticle, completionResult]

set_option maxRecDepth 8192 in
/-- Claim C4 counterexample: with an empty chunk list, the single request
`generateArticle` sends carries the no-context user message, which is not
the with-context template applied to the `"No specific context
available."` placeholder — the claim that the placeholder is substituted
for the context block in the prompt is false. -/
theorem claim_C4_counterexample :
    (generateArticle (fun _ => Except.ok (some "a")) "t" []).2
        = [⟨[⟨"system", articleSystemBase⟩, ⟨"user", articleUserNoContext "t"⟩],
            "llama-3.1-8b-instant", 0.7, 1200⟩]
    ∧ articleUserNoContext "t"
        ≠ articleUserWithContext "t" "No specific context available." := by
  refine ⟨generateArticle_empty_request _ "t", ?_⟩
  intro h
  have := congrArg String.length h
  simp only [articleUserNoContext, articleUserWithContext] at this
  exact absurd this (by decide)

/-- Claim C5: when the generation provider throws, both `summarizeAnswer`
(on any non-empty chunk list, the only case in which it calls the
provider) and `generateArticle` (on any chunk list) return their fixed
error message with confidence low and the evidence computed before the
call; no error propagates, the result being an ordinary value. -/
theorem claim_C5 :
    ∀ (complete : GenRequest → Except Unit (Option String)) (question topic : String)
      (c0 : RetrievedChunk) (rest chunks : List RetrievedChunk),
      (∀ r, complete r = Except.error ()) →
      (summarizeAnswer complete question (c0 :: rest)).1
          = ⟨"Error generating response. Please try again.", Confidence.low,
             ((c0 :: rest).take 3).map RetrievedChunk.path⟩
      ∧ (generateArticle complete topic chunks).1
          = ⟨"Error generating article. Please try again.", Confidence.low,
             (chunks.take 3).map RetrievedChunk.path⟩ := by
  intro complete question topic c0 rest chunks hfail
  constructor
  · simp only [summarizeAnswer]
    rw [hfail]
    rfl
  · simp only [generateArticle]
    rw [hfail]
    rfl

/-- Claim C5 witness: the failing provider satisfies the hypothesis, and
the theorem applies at a concrete chunk list. -/
theorem claim_C5_witness :
    (∀ r, (fun (_ : GenRequest) => (Except.error () : Except Unit (Option String))) r
        = Except.error ())
    ∧ ((summarizeAnswer (fun _ => Except.error ()) "q"
          [⟨some "p", some "x", 0.9, "i"⟩]).1
        = ⟨"Error generating response. Please try again.", Confidence.low,
           (([⟨some "p", some "x", 0.9, "i"⟩] : List RetrievedChunk).take 3).map
             RetrievedChunk.path⟩
      ∧ (generateArticle (fun _ => Except.error ()) "t"
            [⟨some "p", some "x", 0.9, "i"⟩]).1
          = ⟨"Error generating article. Please try again.", Confidence.low,
             (([⟨some "p", some "x", 0.9, "i"⟩] : List RetrievedChunk).take 3).map
               RetrievedChunk.path⟩) :=
  ⟨fun _ => rfl,
   claim_C5 (fun _ => Except.error ()) "q" "t" ⟨some "p", some "x", 0.9, "i"⟩ []
     [⟨some "p", some "x", 0.9, "i"⟩] (fun _ => rfl)⟩

/-- Claim C7: when the query call of the index provider throws,
`retrieveRelevant` returns the empty list instead of propagating the
error, for every question and limit. -/
theorem claim_C7 :
    ∀ (query : String → Nat → Except Unit (List QueryHit)) (question : String) (limit : Nat),
      query question limit = Except.error () →
      retrieveRelevant query question limit = [] := by
  intro query question limit h
  unfold retrieveRelevant
  rw [h]

/-- Claim C7 witness: a provider that always throws satisfies the
hypothesis, and `retrieveRelevant` returns `[]` on it. -/
theorem claim_C7_witness :
    (fun (_ : String) (_ : Nat) => (Except.error () : Except Unit (List QueryHit))) "q" 6
        = Except.error ()
    ∧ retrieveRelevant (fun _ _ => Except.error ()) "q" 6 = [] :=
  ⟨rfl, claim_C7 (fun _ _ => Except.error ()) "q" 6 rfl⟩

/-- Claim C9: on a successful provider response, `retrieveRelevant`
returns exactly one chunk per hit, in provider order, copying id and
score unchanged; hits without metadata are not filtered out — their path
and text are JavaScript `undefined` (modelled `none`) despite the
TypeScript `RetrievedChunk` type declaring them as strings. -/
theorem claim_C9 :
    ∀ (query : String → Nat → Except Unit (List QueryHit)) (question : String) (limit : Nat)
      (hits : List QueryHit),
      query question limit = Except.ok hits →
      retrieveRelevant query question limit
          = hits.map (fun h =>
              { id := h.id
                path := h.metadata.map QueryMetadata.path
                text := h.metadata.map QueryMetadata.text
                score := h.score })
      ∧ (retrieveRelevant query question limit).length = hits.length
      ∧ ∀ h ∈ hits, h.metadata = none →
          ({ id := h.id, path := none, text := none, score := h.score } : RetrievedChunk)
            ∈ retrieveRelevant query question limit := by
  intro query question limit hits hok
  unfold retrieveRelevant
  rw [hok]
  refine ⟨rfl, by simp, ?_⟩
  intro h hmem hnone
  simp only [List.mem_map]
  refine ⟨h, hmem, ?_⟩
  rw [hnone]
  rfl

/-- Claim C9 witness: a provider returning one metadata-bearing hit and
one metadata-less hit satisfies the hypothesis, and the theorem applies. -/
theorem claim_C9_witness :
    (fun (_ : String) (_ : Nat) =>
        (Except.ok [⟨"a", 0.5, some ⟨"p", "x"⟩⟩, ⟨"b", 0.4, none⟩]
          : Except Unit (List QueryHit))) "q" 2
        = Except.ok [⟨"a", 0.5, some ⟨"p", "x"⟩⟩, ⟨"b", 0.4, none⟩]
    ∧ (retrieveRelevant
          (fun _ _ => Except.ok [⟨"a", 0.5, some ⟨"p", "x"⟩⟩, ⟨"b", 0.4, none⟩]) "q" 2
          = ([⟨"a", 0.5, some ⟨"p", "x"⟩⟩, ⟨"b", 0.4, none⟩] : List QueryHit).map
              (fun h =>
                { id := h.id
                  path := h.metadata.map QueryMetadata.path
                  text := h.metadata.map QueryMetadata.text
                  score := h.score })
      ∧ (retrieveRelevant
            (fun _ _ => Except.ok [⟨"a", 0.5, some ⟨"p", "x"⟩⟩, ⟨"b", 0.4, none⟩]) "q" 2).length
          = ([⟨"a", 0.5, some ⟨"p", "x"⟩⟩, ⟨"b", 0.4, none⟩] : List QueryHit).length
      ∧ ∀ h ∈ ([⟨"a", 0.5, some ⟨"p", "x"⟩⟩, ⟨"b", 0.4, none⟩] : List QueryHit),
          h.metadata = none →
          ({ id := h.id, path := none, text := none, score := h.score } : RetrievedChunk)
            ∈ retrieveRelevant
                (fun _ _ => Except.ok [⟨"a", 0.5, some ⟨"p", "x"⟩⟩, ⟨"b", 0.4, none⟩]) "q" 2) :=
  ⟨rfl, claim_C9 (fun _ _ => Except.ok [⟨"a", 0.5, some ⟨"p", "x"⟩⟩, ⟨"b", 0.4, none⟩])
      "q" 2 [⟨"a", 0.5, some ⟨"p", "x"⟩⟩, ⟨"b", 0.4, none⟩] rfl⟩
